import Mathlib

/-!
Verification of the local-draft autosave core and the cursor-based text
mutator of the static-blog-editor repository.

The embedding models, faithfully to the TypeScript source:
  * the pure helpers of `lib/hooks/useLocalDraft.ts` (`dataToHash`,
    `saveDraft`, `loadDraft`, `clearDraft`, `checkForChanges`, the
    hydration effect and the storage key layout),
  * the pure text operations of the Markdown editor component
    (`insertAtCursor`, `insertOnNewLine`),
  * the recovery-prompt effect of the page components.

JavaScript strings are modelled by Lean `String` with positions counted
in characters (the sources never split surrogate pairs), `localStorage`
by an association list, and the wall clock by explicitly passed
timestamp strings (the environment chooses what `new Date().toISOString()`
returns).
-/

namespace BlogEditor

/-! ## JavaScript string primitives -/

/-- Model of `s.substring(a, b)`: JavaScript clamps both indices to `[0, length]`
and swaps them when `a > b`. -/
def jsSubstring (s : String) (a b : Nat) : String :=
  let a2 := min a s.length
  let b2 := min b s.length
  let lo := min a2 b2
  let hi := max a2 b2
  String.mk ((s.data.drop lo).take (hi - lo))

/-- Model of `s.substring(a)`: from `a` to the end of the string. -/
def jsSubstringFrom (s : String) (a : Nat) : String :=
  jsSubstring s a s.length

/-! ## The default JavaScript array sort on strings

`[...tags].sort()` sorts by the code-unit lexicographic order.  We model
the comparison on the underlying character list (the tags of this repository
never contain astral characters, where code-unit and code-point order
could differ) and the sort itself by insertion sort — any correct stable
sort produces the same list. -/

def tagLe (a b : String) : Prop := a.data ≤ b.data

instance : DecidableRel tagLe :=
  fun a b => inferInstanceAs (Decidable (a.data ≤ b.data))

instance : IsTotal String tagLe := ⟨fun a b => le_total a.data b.data⟩

instance : IsTrans String tagLe := ⟨fun _ _ _ h1 h2 => le_trans h1 h2⟩

instance : IsAntisymm String tagLe :=
  ⟨fun _ _ h1 h2 => String.ext (le_antisymm h1 h2)⟩

def jsSortStrings (l : List String) : List String := l.insertionSort tagLe

theorem jsSortStrings_perm_eq (l1 l2 : List String) (h : l1.Perm l2) :
    jsSortStrings l1 = jsSortStrings l2 :=
  List.eq_of_perm_of_sorted
    (((List.perm_insertionSort tagLe l1).trans h).trans
      (List.perm_insertionSort tagLe l2).symm)
    (List.sorted_insertionSort tagLe l1)
    (List.sorted_insertionSort tagLe l2)

/-! ## `JSON.stringify` on the shapes the hook serialises

Only strings, booleans, arrays of strings and flat objects with fixed
key order occur.  Escaping follows the JSON spec as emitted by
`JSON.stringify` (lowercase hex for control characters). -/

def hexDigitChar (n : Nat) : Char :=
  if n < 10 then Char.ofNat (48 + n) else Char.ofNat (87 + n)

def jsonEscapeChar (c : Char) : String :=
  if c = '"' then ("\\\"")
  else if c = '\\' then ("\\\\")
  else if c = '\x08' then ("\\b")
  else if c = '\x09' then ("\\t")
  else if c = '\x0a' then ("\\n")
  else if c = '\x0c' then ("\\f")
  else if c = '\x0d' then ("\\r")
  else if c.toNat < 32 then ("\\u00") ++ String.mk [hexDigitChar (c.toNat / 16), hexDigitChar (c.toNat % 16)]
  else String.singleton c

def jsonString (s : String) : String :=
  "\"" ++ String.join (s.data.map jsonEscapeChar) ++ "\""

def jsonBool (b : Bool) : String := if b then ("true") else ("false")

def jsonStringArray (l : List String) : String :=
  "[" ++ String.intercalate (",") (l.map jsonString) ++ "]"

/-! ## The draft data model (`useLocalDraft.ts`) -/

/-- Model of `Omit<DraftData, "savedAt">`: the payload produced by the
`getData` accessors of the pages and consumed by `dataToHash`. -/
structure DraftFields where
  title : String
  slug : String
  description : String
  date : String
  draft : Bool
  tags : List String
  content : String
deriving Repr, DecidableEq

/-- Model of `DraftData`: the persisted snapshot, `savedAt` set by the store at
write time. -/
structure DraftData where
  fields : DraftFields
  savedAt : String
deriving Repr, DecidableEq

/-- Source function `dataToHash` (useLocalDraft.ts, lines 35–45): `JSON.stringify` of the
fields with `tags` replaced by `[...data.tags].sort()`; `savedAt` is not
part of the input type at all. -/
def dataToHash (d : DraftFields) : String :=
  "\x7b" ++ jsonString ("title") ++ ":" ++ jsonString d.title
  ++ "," ++ jsonString ("slug") ++ ":" ++ jsonString d.slug
  ++ "," ++ jsonString ("description") ++ ":" ++ jsonString d.description
  ++ "," ++ jsonString ("date") ++ ":" ++ jsonString d.date
  ++ "," ++ jsonString ("draft") ++ ":" ++ jsonBool d.draft
  ++ "," ++ jsonString ("tags") ++ ":" ++ jsonStringArray (jsSortStrings d.tags)
  ++ "," ++ jsonString ("content") ++ ":" ++ jsonString d.content
  ++ "\x7d"

/-- Model of `JSON.stringify(draftData)` (useLocalDraft.ts, line 113): the spread
`{...data, savedAt}` keeps the key order of `getData` and appends `savedAt`;
the persisted `tags` order is verbatim, not sorted. -/
def draftDataToJson (dd : DraftData) : String :=
  "\x7b" ++ jsonString ("title") ++ ":" ++ jsonString dd.fields.title
  ++ "," ++ jsonString ("slug") ++ ":" ++ jsonString dd.fields.slug
  ++ "," ++ jsonString ("description") ++ ":" ++ jsonString dd.fields.description
  ++ "," ++ jsonString ("date") ++ ":" ++ jsonString dd.fields.date
  ++ "," ++ jsonString ("draft") ++ ":" ++ jsonBool dd.fields.draft
  ++ "," ++ jsonString ("tags") ++ ":" ++ jsonStringArray dd.fields.tags
  ++ "," ++ jsonString ("content") ++ ":" ++ jsonString dd.fields.content
  ++ "," ++ jsonString ("savedAt") ++ ":" ++ jsonString dd.savedAt
  ++ "\x7d"

/-! ## A model of `JSON.parse`

`loadDraft` casts the parse result to `DraftData` without any shape
validation, so the parse result must be modelled as a raw JSON value.
Numbers keep their lexeme (their numeric value is never used by the
hook). -/

inductive JsonValue where
  | null
  | jbool (b : Bool)
  | jnum (lexeme : String)
  | jstr (s : String)
  | jarr (items : List JsonValue)
  | jobj (members : List (String × JsonValue))

def isJsonWs (c : Char) : Bool :=
  c = ' ' || c = '\x09' || c = '\x0a' || c = '\x0d'

def skipWs (cs : List Char) : List Char := cs.dropWhile isJsonWs

def isAsciiDigit (c : Char) : Bool := '0' ≤ c && c ≤ '9'

def parseHexDigit (c : Char) : Option Nat :=
  if '0' ≤ c ∧ c ≤ '9' then some (c.toNat - 48)
  else if 'a' ≤ c ∧ c ≤ 'f' then some (c.toNat - 87)
  else if 'A' ≤ c ∧ c ≤ 'F' then some (c.toNat - 55)
  else none

/-- Body of a JSON string after the opening quote; returns the decoded
string and the input after the closing quote.  `\uXXXX` decodes to the
scalar value (the drafts never contain lone surrogates). -/
def parseStringBody : Nat → List Char → List Char → Option (String × List Char)
  | 0, _, _ => none
  | _ + 1, [], _ => none
  | fuel + 1, c :: rest, acc =>
    if c = '"' then some (String.mk acc.reverse, rest)
    else if c = '\\' then
      match rest with
      | [] => none
      | e :: rest2 =>
        if e = '"' then parseStringBody fuel rest2 ('"' :: acc)
        else if e = '\\' then parseStringBody fuel rest2 ('\\' :: acc)
        else if e = '/' then parseStringBody fuel rest2 ('/' :: acc)
        else if e = 'b' then parseStringBody fuel rest2 ('\x08' :: acc)
        else if e = 'f' then parseStringBody fuel rest2 ('\x0c' :: acc)
        else if e = 'n' then parseStringBody fuel rest2 ('\x0a' :: acc)
        else if e = 'r' then parseStringBody fuel rest2 ('\x0d' :: acc)
        else if e = 't' then parseStringBody fuel rest2 ('\x09' :: acc)
        else if e = 'u' then
          match rest2 with
          | h1 :: h2 :: h3 :: h4 :: rest3 =>
            match parseHexDigit h1, parseHexDigit h2, parseHexDigit h3, parseHexDigit h4 with
            | some n1, some n2, some n3, some n4 =>
              parseStringBody fuel rest3
                (Char.ofNat (((n1 * 16 + n2) * 16 + n3) * 16 + n4) :: acc)
            | _, _, _, _ => none
          | _ => none
        else none
    else if c.toNat < 32 then none
    else parseStringBody fuel rest (c :: acc)

def spanDigits (cs : List Char) : List Char × List Char :=
  (cs.takeWhile isAsciiDigit, cs.dropWhile isAsciiDigit)

/-- JSON number grammar: `-? int frac? exp?`; returns the lexeme. -/
def parseNumber (cs : List Char) : Option (String × List Char) :=
  let (sign, cs1) := match cs with
    | '-' :: r => (['-'], r)
    | _ => (([] : List Char), cs)
  match cs1 with
  | [] => none
  | c :: r =>
    let intPart? : Option (List Char × List Char) :=
      if c = '0' then some (['0'], r)
      else if isAsciiDigit c then
        let (ds, r2) := spanDigits r
        some (c :: ds, r2)
      else none
    match intPart? with
    | none => none
    | some (intPart, cs2) =>
      let fracPart? : Option (List Char × List Char) :=
        match cs2 with
        | '.' :: r2 =>
          let (ds, r3) := spanDigits r2
          if ds = [] then none else some ('.' :: ds, r3)
        | _ => some ([], cs2)
      match fracPart? with
      | none => none
      | some (fracPart, cs3) =>
        let expPart? : Option (List Char × List Char) :=
          match cs3 with
          | e :: r2 =>
            if e = 'e' ∨ e = 'E' then
              let (sgn, r3) := match r2 with
                | '+' :: r4 => (['+'], r4)
                | '-' :: r4 => (['-'], r4)
                | _ => (([] : List Char), r2)
              let (ds, r4) := spanDigits r3
              if ds = [] then none else some (e :: (sgn ++ ds), r4)
            else some ([], cs3)
          | [] => some ([], cs3)
        match expPart? with
        | none => none
        | some (expPart, cs4) =>
          some (String.mk (sign ++ intPart ++ fracPart ++ expPart), cs4)

/-- Array items after the opening bracket (given the element parser for
one fuel level down); handles the non-empty case. -/
def parseArrItemsWith (p : List Char → Option (JsonValue × List Char)) :
    Nat → List Char → Option (List JsonValue × List Char)
  | 0, _ => none
  | fuel + 1, cs =>
    match p cs with
    | none => none
    | some (v, r) =>
      match skipWs r with
      | ',' :: r2 =>
        match parseArrItemsWith p fuel r2 with
        | none => none
        | some (vs, r3) => some (v :: vs, r3)
      | ']' :: r2 => some ([v], r2)
      | _ => none

/-- Object members after the opening brace (given the value parser);
handles the non-empty case. -/
def parseObjItemsWith (p : List Char → Option (JsonValue × List Char))
    (strFuel : Nat) :
    Nat → List Char → Option (List (String × JsonValue) × List Char)
  | 0, _ => none
  | fuel + 1, cs =>
    match skipWs cs with
    | '"' :: r =>
      match parseStringBody strFuel r [] with
      | none => none
      | some (k, r1) =>
        match skipWs r1 with
        | ':' :: r2 =>
          match p r2 with
          | none => none
          | some (v, r3) =>
            match skipWs r3 with
            | ',' :: r4 =>
              match parseObjItemsWith p strFuel fuel r4 with
              | none => none
              | some (ms, r5) => some ((k, v) :: ms, r5)
            | '\x7d' :: r4 => some ([(k, v)], r4)
            | _ => none
        | _ => none
    | _ => none

def parseVal : Nat → List Char → Option (JsonValue × List Char)
  | 0, _ => none
  | fuel + 1, cs =>
    match skipWs cs with
    | [] => none
    | c :: rest =>
      if c = 'n' then
        match rest with
        | 'u' :: 'l' :: 'l' :: r => some (JsonValue.null, r)
        | _ => none
      else if c = 't' then
        match rest with
        | 'r' :: 'u' :: 'e' :: r => some (JsonValue.jbool true, r)
        | _ => none
      else if c = 'f' then
        match rest with
        | 'a' :: 'l' :: 's' :: 'e' :: r => some (JsonValue.jbool false, r)
        | _ => none
      else if c = '"' then
        match parseStringBody (fuel + 1) rest [] with
        | none => none
        | some (s, r) => some (JsonValue.jstr s, r)
      else if c = '[' then
        match skipWs rest with
        | ']' :: r => some (JsonValue.jarr [], r)
        | _ =>
          match parseArrItemsWith (parseVal fuel) (fuel + 1) rest with
          | none => none
          | some (vs, r) => some (JsonValue.jarr vs, r)
      else if c = '\x7b' then
        match skipWs rest with
        | '\x7d' :: r => some (JsonValue.jobj [], r)
        | _ =>
          match parseObjItemsWith (parseVal fuel) (fuel + 1) (fuel + 1) rest with
          | none => none
          | some (ms, r) => some (JsonValue.jobj ms, r)
      else
        match parseNumber (c :: rest) with
        | none => none
        | some (lex, r) => some (JsonValue.jnum lex, r)

/-- Model of `JSON.parse` as used by the hook: `none` models a thrown
`SyntaxError` (which every call site catches). -/
def jsonParse (s : String) : Option JsonValue :=
  match parseVal (s.length + 2) s.data with
  | none => none
  | some (v, rest) => if skipWs rest = [] then some v else none

/-- Property access `obj[k]` on a parse result; later duplicate keys win,
as in JavaScript; non-objects and absent keys give `undefined` (`none`). -/
def jsonField (v : JsonValue) (k : String) : Option JsonValue :=
  match v with
  | JsonValue.jobj ms => (ms.reverse.find? (fun m => m.1 == k)).map (fun m => m.2)
  | _ => none

def jsonFieldString (v : JsonValue) (k : String) : Option String :=
  match jsonField v k with
  | some (JsonValue.jstr s) => some s
  | _ => none

/-! ## The storage medium (`localStorage`) -/

abbrev Store := List (String × String)

def Store.getItem (st : Store) (k : String) : Option String :=
  (st.find? (fun p => p.1 == k)).map (fun p => p.2)

def Store.setItem (st : Store) (k v : String) : Store :=
  (k, v) :: st.filter (fun p => p.1 != k)

def Store.removeItem (st : Store) (k : String) : Store :=
  st.filter (fun p => p.1 != k)

/-! ## The `useLocalDraft` hook -/

inductive DraftStatus where
  | idle
  | saving
  | saved
deriving Repr, DecidableEq

structure HookState where
  status : DraftStatus
  lastSaved : Option String
  hasUnsavedChanges : Bool
  hasDraft : Bool
  isHydrated : Bool
  lastSavedHash : Option String
deriving Repr, DecidableEq

def initialHookState : HookState :=
  { status := DraftStatus.idle, lastSaved := none, hasUnsavedChanges := false,
    hasDraft := false, isHydrated := false, lastSavedHash := none }

/-- Source line `` const storageKey = `inkwell-draft-${key}` ``
(useLocalDraft.ts, line 52). -/
def storageKey (key : String) : String := "inkwell-draft-" ++ key

/-- Hydration effect (useLocalDraft.ts, lines 63–75): `JSON.parse` throws
before `setHasDraft(true)` runs, so a syntactically corrupt value leaves
`hasDraft` false.  `new Date(draft.savedAt)` never throws; an absent or
non-string `savedAt` yields an invalid `Date`, modelled by `""`. -/
def hydrate (key : String) (store : Store) (st : HookState) : HookState :=
  let st2 :=
    match store.getItem (storageKey key) with
    | none => st
    | some saved =>
      match jsonParse saved with
      | none => st
      | some draft =>
        { st with hasDraft := true,
                  lastSaved := some ((jsonFieldString draft ("savedAt")).getD ("")) }
  { st2 with isHydrated := true }

/-- Source function `checkForChanges` (useLocalDraft.ts, lines 78–92).  `data = none`
models the accessor returning `null`. -/
def checkForChanges (data : Option DraftFields) (st : HookState) :
    HookState × Bool :=
  match data with
  | none => (st, false)
  | some d =>
    match st.lastSavedHash with
    | none =>
      ({ st with lastSavedHash := some (dataToHash d) }, false)
    | some prev =>
      let currentHash := dataToHash d
      let hasChanges := prev != currentHash
      ({ st with hasUnsavedChanges := hasChanges }, hasChanges)

/-- Source function `saveDraft` (useLocalDraft.ts, lines 95–119).  `now` is what
`new Date().toISOString()` returns during this pass; the transient
`setStatus("saving")` is immediately superseded by `setStatus("saved")`
within the same synchronous pass.  The third component records whether a
`localStorage.setItem` happened. -/
def saveDraft (key : String) (data : Option DraftFields) (now : String)
    (st : HookState) (store : Store) : HookState × Store × Bool :=
  match data with
  | none => (st, store, false)
  | some d =>
    let currentHash := dataToHash d
    if st.lastSavedHash = some currentHash then
      (st, store, false)
    else
      let store2 := store.setItem (storageKey key) (draftDataToJson ⟨d, now⟩)
      ({ st with status := DraftStatus.saved,
                 lastSaved := some now,
                 hasUnsavedChanges := false,
                 hasDraft := true,
                 lastSavedHash := some currentHash }, store2, true)

/-- Source function `loadDraft` (useLocalDraft.ts, lines 122–131): the parse result is
cast to `DraftData` with no shape validation, so the returned value is
whatever JSON value was stored; `none` for an absent key or a parse
failure (the `catch` turns the thrown error into `null`). -/
def loadDraft (key : String) (store : Store) : Option JsonValue :=
  match store.getItem (storageKey key) with
  | none => none
  | some saved => jsonParse saved

/-- Source function `clearDraft` (useLocalDraft.ts, lines 134–138). -/
def clearDraft (key : String) (st : HookState) (store : Store) :
    HookState × Store :=
  ({ st with hasDraft := false, lastSaved := none },
   store.removeItem (storageKey key))

/-! ## The text mutator (`MarkdownEditor`)

`insertAtCursor` and `insertOnNewLine` read the selection from the
textarea and then compute purely on the current `value`; the pure core
takes the selection offsets as arguments and returns the new text and
the collapsed selection range passed to `setSelectionRange`. -/

/-- Model of `before.endsWith("\n")`: for a one-character suffix this is exactly
"the last character is a newline". -/
def endsWithNewline (s : String) : Bool := s.data.getLast? == some '\x0a'

/-- Source function `insertAtCursor` (MarkdownEditor, lines 107–133).  `selStart`/`selEnd`
are `selectionStart`/`selectionEnd`; the result is
`(newText, newCursorPos, newCursorPos)` — `setSelectionRange` is called
with the same offset twice. -/
def insertAtCursor (value : String) (selStart selEnd : Nat)
    (pre suf defaultText : String) : String × Nat × Nat :=
  let selectedText := jsSubstring value selStart selEnd
  let textToInsert := if selectedText = "" then defaultText else selectedText
  let before := jsSubstring value 0 selStart
  let after := jsSubstringFrom value selEnd
  let newText := before ++ pre ++ textToInsert ++ suf ++ after
  let newCursorPos :=
    if selectedText = "" then selStart + pre.length
    else selStart + pre.length + selectedText.length + suf.length
  (newText, newCursorPos, newCursorPos)

/-- Source function `insertOnNewLine` (MarkdownEditor, lines 136–159). -/
def insertOnNewLine (value : String) (selStart : Nat) (text : String) :
    String × Nat :=
  let before := jsSubstring value 0 selStart
  let after := jsSubstringFrom value selStart
  let needsNewline := decide (0 < before.length) && !(endsWithNewline before)
  let pre := if needsNewline then ("\x0a") else ("")
  (before ++ pre ++ text ++ after, selStart + pre.length + text.length)

/-! ## The recovery-prompt flow of the page components

`NewPostPage` (and analogously `EditPostPage`) opens the restore/discard
dialog from an effect whose dependencies are `[isHydrated, hasDraft]`;
the effect re-runs exactly when that dependency tuple changes between
renders.  The model replays the session as a list of events, running the
dialog effect after each state update, and counts how many times the
effect opens the dialog. -/

def newPostDraftKey : String := "new-post"

def editPostDraftKey (slug : String) : String := "edit-" ++ slug

structure PageState where
  hook : HookState
  store : Store
  showDraftDialog : Bool
  promptShows : Nat
deriving Repr, DecidableEq

def dialogDeps (st : HookState) : Bool × Bool := (st.isHydrated, st.hasDraft)

/-- The effect `if (isHydrated && hasDraft) setShowDraftDialog(true)` with
dependency array `[isHydrated, hasDraft]` (NewPostPage, lines 131–135).
`promptShows` counts the transitions of the dialog from closed to open. -/
def runDialogEffect (prev : Bool × Bool) (ps : PageState) : PageState :=
  if dialogDeps ps.hook ≠ prev then
    if ps.hook.isHydrated && ps.hook.hasDraft then
      { ps with showDraftDialog := true,
                promptShows := ps.promptShows + (if ps.showDraftDialog then 0 else 1) }
    else ps
  else ps

inductive PageEvent where
  | hydrateEvt
  | discardEvt
  | restoreEvt
  | dirtyTick (data : Option DraftFields)
  | persistTick (data : Option DraftFields) (now : String)

/-- One step of the editing session: the handler of the event, then the dialog
effect (which fires when its dependencies changed during the step).  The
persist tick re-runs the dirty check and saves only when it reports
changes (useLocalDraft.ts, lines 150–159); `restoreEvt`/`discardEvt` are
the two dialog buttons. -/
def pageStep (key : String) (ev : PageEvent) (ps : PageState) : PageState :=
  let prev := dialogDeps ps.hook
  let ps2 :=
    match ev with
    | PageEvent.hydrateEvt =>
      { ps with hook := hydrate key ps.store ps.hook }
    | PageEvent.discardEvt =>
      let r := clearDraft key ps.hook ps.store
      { ps with hook := r.1, store := r.2, showDraftDialog := false }
    | PageEvent.restoreEvt =>
      { ps with showDraftDialog := false }
    | PageEvent.dirtyTick data =>
      { ps with hook := (checkForChanges data ps.hook).1 }
    | PageEvent.persistTick data now =>
      let r := checkForChanges data ps.hook
      if r.2 then
        let r2 := saveDraft key data now r.1 ps.store
        { ps with hook := r2.1, store := r2.2.1 }
      else
        { ps with hook := r.1 }
  runDialogEffect prev ps2

def pageRun (key : String) (evs : List PageEvent) (ps : PageState) : PageState :=
  evs.foldl (fun s e => pageStep key e s) ps

/-! ## Definitions taken from the words of the specification

These two follow the spec, not the source; they exist only to be
compared against the source-derived definitions above. -/

/-- Modelled from the spec: §4.3 names the persistence key layout
`draft-{context}`. -/
def specStorageKey (context : String) : String := "draft-" ++ context

def fieldIsString (v : JsonValue) (k : String) : Bool :=
  match jsonField v k with
  | some (JsonValue.jstr _) => true
  | _ => false

def isJsonStringVal : JsonValue → Bool
  | JsonValue.jstr _ => true
  | _ => false

/-- Modelled from the spec: the `PostDraftSnapshot` shape of §3 — an object
with string `title`/`slug`/`description`/`date`/`content`/`savedAt`,
boolean `draft`, and `tags` an array of strings. -/
def specValidSnapshot (v : JsonValue) : Bool :=
  (match v with | JsonValue.jobj _ => true | _ => false)
  && fieldIsString v ("title") && fieldIsString v ("slug")
  && fieldIsString v ("description") && fieldIsString v ("date")
  && (match jsonField v ("draft") with
      | some (JsonValue.jbool _) => true
      | _ => false)
  && (match jsonField v ("tags") with
      | some (JsonValue.jarr xs) => xs.all isJsonStringVal
      | _ => false)
  && fieldIsString v ("content") && fieldIsString v ("savedAt")

/-! ## Substring lemmas -/

theorem data_mk (l : List Char) : (String.mk l).data = l := rfl

theorem mk_eq_empty_iff (l : List Char) : String.mk l = "" ↔ l = [] := by
  constructor
  · intro h
    simpa using congrArg String.data h
  · intro h
    subst h
    rfl

theorem jsSubstring_eq_of_le (s : String) (a b : Nat) (hab : a ≤ b)
    (hb : b ≤ s.length) :
    jsSubstring s a b = String.mk ((s.data.drop a).take (b - a)) := by
  have ha : a ≤ s.length := le_trans hab hb
  have h1 : min a s.length = a := by omega
  have h2 : min b s.length = b := by omega
  have h3 : min a b = a := by omega
  have h4 : max a b = b := by omega
  simp only [jsSubstring, h1, h2, h3, h4]

theorem jsSubstring_zero (s : String) (a : Nat) (ha : a ≤ s.length) :
    jsSubstring s 0 a = String.mk (s.data.take a) := by
  rw [jsSubstring_eq_of_le s 0 a (Nat.zero_le a) ha]
  simp

theorem jsSubstringFrom_eq (s : String) (a : Nat) (ha : a ≤ s.length) :
    jsSubstringFrom s a = String.mk (s.data.drop a) := by
  unfold jsSubstringFrom
  rw [jsSubstring_eq_of_le s a s.length ha le_rfl]
  congr 1
  apply List.take_of_length_le
  rw [List.length_drop]
  have hd : s.length = s.data.length := rfl
  omega

theorem jsSubstring_length (s : String) (a b : Nat) (hab : a ≤ b)
    (hb : b ≤ s.length) :
    (jsSubstring s a b).length = b - a := by
  rw [jsSubstring_eq_of_le s a b hab hb]
  show ((s.data.drop a).take (b - a)).length = b - a
  rw [List.length_take, List.length_drop]
  have hd : s.length = s.data.length := rfl
  omega

/-! ## Closed forms of the two text operations -/

theorem insertAtCursor_eq (value pre suf defaultText : String) (a b : Nat)
    (hab : a ≤ b) (hb : b ≤ value.length) :
    insertAtCursor value a b pre suf defaultText =
      (String.mk (value.data.take a) ++ pre ++
        (if a = b then defaultText
         else String.mk ((value.data.drop a).take (b - a))) ++ suf ++
        String.mk (value.data.drop b),
       if a = b then a + pre.length else a + pre.length + (b - a) + suf.length,
       if a = b then a + pre.length else a + pre.length + (b - a) + suf.length) := by
  have ha : a ≤ value.length := le_trans hab hb
  unfold insertAtCursor
  rw [jsSubstring_eq_of_le value a b hab hb, jsSubstring_zero value a ha,
      jsSubstringFrom_eq value b hb]
  by_cases h : a = b
  · subst h
    simp
  · have hne : String.mk ((value.data.drop a).take (b - a)) ≠ "" := by
      rw [Ne, mk_eq_empty_iff, List.take_eq_nil_iff]
      intro hc
      rcases hc with hc | hc
      · omega
      · have := congrArg List.length hc
        rw [List.length_drop] at this
        have hd : value.length = value.data.length := rfl
        simp at this
        omega
    have hlen : (String.mk ((value.data.drop a).take (b - a))).length = b - a := by
      show ((value.data.drop a).take (b - a)).length = b - a
      rw [List.length_take, List.length_drop]
      have hd : value.length = value.data.length := rfl
      omega
    simp [hne, hlen, h]

theorem insertOnNewLine_eq (value text : String) (a : Nat)
    (ha : a ≤ value.length) :
    insertOnNewLine value a text =
      (String.mk (value.data.take a)
        ++ (if 0 < a ∧ (value.data.take a).getLast? ≠ some '\x0a'
            then ("\x0a") else (""))
        ++ text ++ String.mk (value.data.drop a),
       a + (if 0 < a ∧ (value.data.take a).getLast? ≠ some '\x0a'
            then 1 else 0) + text.length) := by
  unfold insertOnNewLine
  rw [jsSubstring_zero value a ha, jsSubstringFrom_eq value a ha]
  have hlen : (String.mk (value.data.take a)).length = a := by
    show (value.data.take a).length = a
    rw [List.length_take]
    have hd : value.length = value.data.length := rfl
    omega
  by_cases h1 : 0 < a
  · by_cases h2 : (value.data.take a).getLast? = some '\x0a'
    · simp [endsWithNewline, hlen, h1, h2]
    · simp [endsWithNewline, hlen, h1, h2]
      rfl
  · simp [endsWithNewline, hlen, h1]

/-! ## Claim theorems: the text mutator -/

/-- C4: wrapping a non-empty selection `[start, end)` yields
`text[0,start] ++ prefix ++ text[start,end] ++ suffix ++ text[end,len]`
with a collapsed cursor at
`start + |prefix| + |selectedText| + |suffix|`. -/
theorem insertAtCursor_wraps_nonempty_selection
    (value pre suf defaultText : String) (a b : Nat)
    (hab : a < b) (hb : b ≤ value.length) :
    insertAtCursor value a b pre suf defaultText =
      (String.mk (value.data.take a) ++ pre ++
        String.mk ((value.data.drop a).take (b - a)) ++ suf ++
        String.mk (value.data.drop b),
       a + pre.length + (jsSubstring value a b).length + suf.length,
       a + pre.length + (jsSubstring value a b).length + suf.length) := by
  have h := insertAtCursor_eq value pre suf defaultText a b (le_of_lt hab) hb
  rw [h, jsSubstring_length value a b (le_of_lt hab) hb]
  have hne : ¬ a = b := Nat.ne_of_lt hab
  simp [hne]

/-- C4 witness: `wrapSelection("Hello world", 6..11, "*", "*", _)` gives
`"Hello *world*"` with the cursor collapsed at 13. -/
theorem insertAtCursor_wraps_nonempty_selection_witness :
    insertAtCursor ("Hello world") 6 11 ("*") ("*") ("italic text") =
      (("Hello *world*"), 13, 13) := by
  have h := insertAtCursor_wraps_nonempty_selection ("Hello world") ("*") ("*")
    ("italic text") 6 11 (by decide) (by decide)
  rw [h]
  decide

/-- C5 counterexample: on an empty selection the bold command produces a
collapsed cursor `(8, 8)` right after the prefix, not a selection
covering the inserted placeholder (which would end at `8 + 9 = 17`). -/
theorem insertAtCursor_empty_selection_not_covering :
    (insertAtCursor ("Hello ") 6 6 ("**") ("**") ("bold text")) =
      (("Hello **bold text**"), 8, 8) ∧
    (8 : Nat) ≠ 8 + ("bold text").length := by
  decide

/-- C5 amended: on an empty selection the placeholder is inserted wrapped
in prefix/suffix, and the resulting cursor is collapsed immediately after
the prefix (offset `start + |prefix|`), before the placeholder. -/
theorem insertAtCursor_empty_selection_inserts_placeholder
    (value pre suf defaultText : String) (a : Nat) (ha : a ≤ value.length) :
    insertAtCursor value a a pre suf defaultText =
      (String.mk (value.data.take a) ++ pre ++ defaultText ++ suf ++
        String.mk (value.data.drop a),
       a + pre.length, a + pre.length) := by
  have h := insertAtCursor_eq value pre suf defaultText a a le_rfl ha
  rw [h]
  simp

/-- C5 amended witness: the bold command on an empty selection in
`"Hello "`. -/
theorem insertAtCursor_empty_selection_inserts_placeholder_witness :
    insertAtCursor ("Hello ") 6 6 ("**") ("**") ("bold text") =
      (("Hello **bold text**"), 8, 8) := by
  have h := insertAtCursor_empty_selection_inserts_placeholder ("Hello ")
    ("**") ("**") ("bold text") 6 (by decide)
  rw [h]
  decide

/-- C6: `insertOnNewLine` prepends a single newline exactly when the text
before the cursor is non-empty and does not end in a newline, appends
nothing after the snippet, and returns cursor
`start + |prepended| + |snippet|`; in particular
`insertOnNewLine("", 0, "# ") = ("# ", 2)` and
`insertOnNewLine("abc", 3, "# ") = ("abc\n# ", 6)`. -/
theorem insertOnNewLine_newline_rule (value snippet : String) (a : Nat)
    (ha : a ≤ value.length) :
    (insertOnNewLine value a snippet =
      (String.mk (value.data.take a)
        ++ (if 0 < a ∧ (value.data.take a).getLast? ≠ some '\x0a'
            then ("\x0a") else (""))
        ++ snippet ++ String.mk (value.data.drop a),
       a + (if 0 < a ∧ (value.data.take a).getLast? ≠ some '\x0a'
            then 1 else 0) + snippet.length)) ∧
    insertOnNewLine ("") 0 ("# ") = (("# "), 2) ∧
    insertOnNewLine ("abc") 3 ("# ") = (("abc\x0a# "), 6) :=
  ⟨insertOnNewLine_eq value snippet a ha, by decide, by decide⟩

/-- C6 witness. -/
theorem insertOnNewLine_newline_rule_witness :
    insertOnNewLine ("abc") 3 ("# ") = (("abc\x0a# "), 6) :=
  (insertOnNewLine_newline_rule ("abc") ("# ") 3 (by decide)).2.2

/-- C10: both mutators are non-destructive outside the edited region —
the new text is `text[0,start] ++ inserted ++ text[end,len]` (with
`start = end = cursor` for `insertOnNewLine`), and a non-empty selected
substring reappears verbatim between prefix and suffix. -/
theorem mutators_preserve_outside_text
    (value pre suf defaultText snippet : String) (a b : Nat)
    (hab : a ≤ b) (hb : b ≤ value.length) :
    ((insertAtCursor value a b pre suf defaultText).1 =
       String.mk (value.data.take a) ++
       (pre ++ (if a = b then defaultText
                else String.mk ((value.data.drop a).take (b - a))) ++ suf) ++
       String.mk (value.data.drop b)) ∧
    (a < b → (insertAtCursor value a b pre suf defaultText).1 =
       String.mk (value.data.take a) ++ pre ++
       String.mk ((value.data.drop a).take (b - a)) ++ suf ++
       String.mk (value.data.drop b)) ∧
    ((insertOnNewLine value a snippet).1 =
       String.mk (value.data.take a) ++
       ((if 0 < a ∧ (value.data.take a).getLast? ≠ some '\x0a'
         then ("\x0a") else ("")) ++ snippet) ++
       String.mk (value.data.drop a)) := by
  have ha : a ≤ value.length := le_trans hab hb
  have h1 := insertAtCursor_eq value pre suf defaultText a b hab hb
  have h2 := insertOnNewLine_eq value snippet a ha
  refine ⟨?_, ?_, ?_⟩
  · rw [h1]
    simp only [String.ext_iff, String.data_append, data_mk, List.append_assoc]
  · intro hlt
    rw [h1]
    have hne : ¬ a = b := Nat.ne_of_lt hlt
    simp [hne]
  · rw [h2]
    simp only [String.ext_iff, String.data_append, data_mk, List.append_assoc]

/-- C10 witness: concrete frame check for both operations. -/
theorem mutators_preserve_outside_text_witness :
    (insertAtCursor ("Hello world") 6 11 ("*") ("*") ("x")).1 =
      ("Hello *world*") ∧
    (insertOnNewLine ("Hello world") 6 ("# ")).1 = ("Hello \x0a# world") := by
  have h := mutators_preserve_outside_text ("Hello world") ("*") ("*") ("x")
    ("# ") 6 11 (by decide) (by decide)
  constructor
  · rw [h.2.1 (by decide)]
    decide
  · rw [h.2.2]
    decide

/-! ## Hook lemmas -/

theorem getItem_setItem (st : Store) (k v : String) :
    (st.setItem k v).getItem k = some v := by
  simp [Store.getItem, Store.setItem]

theorem saveDraft_writes (key now : String) (d : DraftFields)
    (st : HookState) (store : Store)
    (hdirty : st.lastSavedHash ≠ some (dataToHash d)) :
    saveDraft key (some d) now st store =
      ({ st with status := DraftStatus.saved, lastSaved := some now,
                 hasUnsavedChanges := false, hasDraft := true,
                 lastSavedHash := some (dataToHash d) },
       store.setItem (storageKey key) (draftDataToJson ⟨d, now⟩), true) := by
  unfold saveDraft
  simp [hdirty]

theorem saveDraft_skips (key now : String) (d : DraftFields)
    (st : HookState) (store : Store)
    (hclean : st.lastSavedHash = some (dataToHash d)) :
    saveDraft key (some d) now st store = (st, store, false) := by
  unfold saveDraft
  simp [hclean]

/-! ## Claim theorems: the autosave hook -/

/-- C1: from a state whose last-saved fingerprint differs from the live
fingerprint of the live data, running `saveDraft` twice with that data
performs exactly one storage write: the first call writes the snapshot
(with its `savedAt`) and records the fingerprint, the second call skips
— no write, state and store (hence the stored `savedAt`) unchanged. -/
theorem saveDraft_twice_single_write (key now1 now2 : String)
    (d : DraftFields) (st : HookState) (store : Store)
    (hdirty : st.lastSavedHash ≠ some (dataToHash d)) :
    let r1 := saveDraft key (some d) now1 st store
    let r2 := saveDraft key (some d) now2 r1.1 r1.2.1
    r1.2.2 = true ∧
    r1.1.lastSavedHash = some (dataToHash d) ∧
    r1.2.1.getItem (storageKey key) = some (draftDataToJson ⟨d, now1⟩) ∧
    r2.2.2 = false ∧ r2.1 = r1.1 ∧ r2.2.1 = r1.2.1 ∧
    r2.2.1.getItem (storageKey key) = some (draftDataToJson ⟨d, now1⟩) := by
  have h1 := saveDraft_writes key now1 d st store hdirty
  have h2 := saveDraft_skips key now2 d
    { st with status := DraftStatus.saved, lastSaved := some now1,
              hasUnsavedChanges := false, hasDraft := true,
              lastSavedHash := some (dataToHash d) }
    (store.setItem (storageKey key) (draftDataToJson ⟨d, now1⟩)) rfl
  simp only [h1, h2]
  exact ⟨trivial, trivial, getItem_setItem store _ _, trivial, trivial,
    trivial, getItem_setItem store _ _⟩

/-- Concrete witness data shared by several witnesses. -/
def wFieldsA : DraftFields :=
  { title := "t", slug := "s", description := "d", date := "2024-01-01",
    draft := false, tags := ["a", "b"], content := "body" }

/-- Variant of `wFieldsA` with the tags permuted. -/
def wFieldsB : DraftFields :=
  { title := "t", slug := "s", description := "d", date := "2024-01-01",
    draft := false, tags := ["b", "a"], content := "body" }

/-- Variant of `wFieldsA` with edited content. -/
def wFieldsC : DraftFields :=
  { title := "t", slug := "s", description := "d", date := "2024-01-01",
    draft := false, tags := ["a", "b"], content := "edited" }

/-- C1 witness: a fresh mount (`lastSavedHash = none`) saving twice. -/
theorem saveDraft_twice_single_write_witness :
    let r1 := saveDraft newPostDraftKey (some wFieldsA) ("T1") initialHookState []
    let r2 := saveDraft newPostDraftKey (some wFieldsA) ("T2") r1.1 r1.2.1
    r1.2.2 = true ∧
    r1.1.lastSavedHash = some (dataToHash wFieldsA) ∧
    r1.2.1.getItem (storageKey newPostDraftKey) =
      some (draftDataToJson ⟨wFieldsA, "T1"⟩) ∧
    r2.2.2 = false ∧ r2.1 = r1.1 ∧ r2.2.1 = r1.2.1 ∧
    r2.2.1.getItem (storageKey newPostDraftKey) =
      some (draftDataToJson ⟨wFieldsA, "T1"⟩) :=
  saveDraft_twice_single_write newPostDraftKey ("T1") ("T2") wFieldsA
    initialHookState [] (by decide)

/-- C2: two field states that agree on everything but a permutation of
`tags` have the same fingerprint, so the dirty check against such a
baseline reports no changes; and `savedAt` is not an input to the
fingerprint (snapshots with equal fields hash equally regardless of
their `savedAt`). -/
theorem dataToHash_ignores_tag_order_and_savedAt
    (d1 d2 : DraftFields) (st : HookState)
    (ht : d1.title = d2.title) (hs : d1.slug = d2.slug)
    (hd : d1.description = d2.description) (hdt : d1.date = d2.date)
    (hdr : d1.draft = d2.draft) (hc : d1.content = d2.content)
    (htags : d1.tags.Perm d2.tags)
    (hbase : st.lastSavedHash = some (dataToHash d1)) :
    dataToHash d1 = dataToHash d2 ∧
    (checkForChanges (some d2) st).2 = false ∧
    (checkForChanges (some d2) st).1.hasUnsavedChanges = false ∧
    ∀ dd1 dd2 : DraftData, dd1.fields = dd2.fields →
      dataToHash dd1.fields = dataToHash dd2.fields := by
  have hhash : dataToHash d1 = dataToHash d2 := by
    unfold dataToHash
    rw [ht, hs, hd, hdt, hdr, hc, jsSortStrings_perm_eq _ _ htags]
  refine ⟨hhash, ?_, ?_, fun dd1 dd2 h => by rw [h]⟩
  · unfold checkForChanges
    simp [hbase, hhash]
  · unfold checkForChanges
    simp [hbase, hhash]

/-- C2 witness: tags `["a","b"]` vs `["b","a"]`. -/
theorem dataToHash_ignores_tag_order_and_savedAt_witness :
    dataToHash wFieldsA = dataToHash wFieldsB ∧
    (checkForChanges (some wFieldsB)
      { initialHookState with lastSavedHash := some (dataToHash wFieldsA) }).2
      = false := by
  have h := dataToHash_ignores_tag_order_and_savedAt wFieldsA wFieldsB
    { initialHookState with lastSavedHash := some (dataToHash wFieldsA) }
    rfl rfl rfl rfl rfl rfl (by decide) rfl
  exact ⟨h.1, h.2.1⟩

/-- C3: with no baseline yet, the first dirty check that sees data
reports `false`, records the observed fingerprint as the baseline, and
does not touch `hasUnsavedChanges`; a subsequent check reports `true`
exactly when the fingerprint differs from that baseline — and hence only
when the state differs. -/
theorem checkForChanges_first_establishes_baseline (d : DraftFields)
    (st : HookState) (hinit : st.lastSavedHash = none) :
    checkForChanges none st = (st, false) ∧
    (checkForChanges (some d) st).2 = false ∧
    (checkForChanges (some d) st).1.lastSavedHash = some (dataToHash d) ∧
    (checkForChanges (some d) st).1.hasUnsavedChanges = st.hasUnsavedChanges ∧
    ∀ d2 : DraftFields,
      ((checkForChanges (some d2) (checkForChanges (some d) st).1).2 = true ↔
        dataToHash d2 ≠ dataToHash d) ∧
      ((checkForChanges (some d2) (checkForChanges (some d) st).1).2 = true →
        d2 ≠ d) := by
  have h1 : checkForChanges (some d) st =
      ({ st with lastSavedHash := some (dataToHash d) }, false) := by
    unfold checkForChanges
    simp [hinit]
  refine ⟨rfl, by rw [h1], by rw [h1], by rw [h1], ?_⟩
  intro d2
  have h2 : (checkForChanges (some d2) (checkForChanges (some d) st).1).2 =
      (dataToHash d != dataToHash d2) := by
    rw [h1]
    unfold checkForChanges
    simp
  constructor
  · rw [h2]
    constructor
    · intro h
      exact (bne_iff_ne.mp h).symm
    · intro h
      exact bne_iff_ne.mpr (Ne.symm h)
  · intro h heq
    rw [h2, heq] at h
    simp at h

/-- C3 witness: first check on `wFieldsA` reports `false`; an edited
state then reports `true`. -/
theorem checkForChanges_first_establishes_baseline_witness :
    (checkForChanges (some wFieldsA) initialHookState).2 = false ∧
    (checkForChanges (some wFieldsC)
      (checkForChanges (some wFieldsA) initialHookState).1).2 = true := by
  have h := checkForChanges_first_establishes_baseline wFieldsA
    initialHookState rfl
  exact ⟨h.2.1, ((h.2.2.2.2 wFieldsC).1).mpr (by decide)⟩

/-- C7 amended: an absent key or a stored value that is not syntactically
valid JSON is treated as absence — `loadDraft` returns `none` (the parse
error is caught, never surfaced) and hydration leaves `hasDraft` false.
(A syntactically valid JSON value of the wrong shape is *not* treated as
absent; see the counterexample.) -/
theorem loadDraft_malformed_treated_absent (key : String) (store : Store)
    (habs : store.getItem (storageKey key) = none ∨
      ∃ s, store.getItem (storageKey key) = some s ∧
        (jsonParse s).isNone = true) :
    loadDraft key store = none ∧
    (hydrate key store initialHookState).hasDraft = false ∧
    (hydrate key store initialHookState).isHydrated = true := by
  rcases habs with h | ⟨s, hs, hp⟩
  · unfold loadDraft hydrate
    simp [h, initialHookState]
  · have hp2 : jsonParse s = none := Option.isNone_iff_eq_none.mp hp
    unfold loadDraft hydrate
    simp [hs, hp2, initialHookState]

/-- C7 amended witness: a stored value that fails `JSON.parse`. -/
theorem loadDraft_malformed_treated_absent_witness :
    loadDraft newPostDraftKey
      [(storageKey newPostDraftKey, "corrupt not json")] = none ∧
    (hydrate newPostDraftKey [(storageKey newPostDraftKey, "corrupt not json")]
      initialHookState).hasDraft = false ∧
    (hydrate newPostDraftKey [(storageKey newPostDraftKey, "corrupt not json")]
      initialHookState).isHydrated = true :=
  loadDraft_malformed_treated_absent newPostDraftKey
    [(storageKey newPostDraftKey, "corrupt not json")]
    (Or.inr ⟨"corrupt not json", by decide, by decide⟩)

/-- The store holding `"123"` — syntactically valid JSON that is not a
valid snapshot — under the key of the new-post context. -/
def wrongShapeStore : Store := [(storageKey newPostDraftKey, "123")]

/-- C7 counterexample: a stored value that is valid JSON but not a valid
snapshot is *not* treated as absent: `loadDraft` returns it (the cast is
unvalidated) and hydration sets `hasDraft` to true. -/
theorem loadDraft_wrong_shape_not_absent :
    (loadDraft newPostDraftKey wrongShapeStore).isSome = true ∧
    (loadDraft newPostDraftKey wrongShapeStore).map specValidSnapshot =
      some false ∧
    (hydrate newPostDraftKey wrongShapeStore initialHookState).hasDraft =
      true := by
  decide

/-- C8 counterexample: after a save for the new-post context nothing is
stored under `draft-new-post`; the snapshot lives under
`inkwell-draft-new-post`. -/
theorem storageKey_not_spec_layout :
    (saveDraft newPostDraftKey (some wFieldsA) ("T1") initialHookState
      []).2.1.getItem (specStorageKey newPostDraftKey) = none ∧
    (saveDraft newPostDraftKey (some wFieldsA) ("T1") initialHookState
      []).2.1.getItem ("inkwell-draft-new-post") =
      some (draftDataToJson ⟨wFieldsA, "T1"⟩) ∧
    storageKey newPostDraftKey ≠ specStorageKey newPostDraftKey := by
  decide

/-- C8 amended: the storage key is `inkwell-draft-` ++ context (not
`draft-` ++ context), and the context-to-key mapping is injective: the
new-post context and the edit contexts (`edit-` ++ slug) never collide.
-/
theorem storageKey_layout (k1 k2 s1 s2 : String) :
    storageKey k1 = "inkwell-draft-" ++ k1 ∧
    (storageKey k1 = storageKey k2 ↔ k1 = k2) ∧
    (editPostDraftKey s1 = editPostDraftKey s2 ↔ s1 = s2) ∧
    newPostDraftKey ≠ editPostDraftKey s1 ∧
    storageKey newPostDraftKey ≠ storageKey (editPostDraftKey s1) := by
  have hinj : ∀ p a b : String, p ++ a = p ++ b → a = b := by
    intro p a b h
    apply String.ext
    have hdata := congrArg String.data h
    rw [String.data_append, String.data_append] at hdata
    exact List.append_cancel_left hdata
  have hnew : ∀ s : String, newPostDraftKey ≠ editPostDraftKey s := by
    intro s h
    have hdata := congrArg String.data h
    rw [show editPostDraftKey s = "edit-" ++ s from rfl,
        String.data_append] at hdata
    rw [show (newPostDraftKey.data : List Char) =
          ['n', 'e', 'w', '-', 'p', 'o', 's', 't'] from rfl,
        show ("edit-" : String).data = ['e', 'd', 'i', 't', '-'] from rfl]
      at hdata
    injection hdata with h1 _
    exact absurd h1 (by decide)
  refine ⟨rfl, ⟨fun h => hinj _ _ _ h, fun h => by rw [h]⟩,
    ⟨fun h => hinj _ _ _ h, fun h => by rw [h]⟩, hnew s1, ?_⟩
  intro h
  exact hnew s1 (hinj _ _ _ h)

/-! ## Claim C9: the recovery prompt is re-triggered -/

/-- The store at mount time: a draft from a previous session exists
under the key of the new-post context (here the minimal valid JSON value). -/
def c9Store : Store := [(storageKey newPostDraftKey, "\x7b\x7d")]

/-- Mount, resolve the prompt by discarding, one dirty tick establishing
the baseline, then a persist tick after an edit. -/
def c9Trace : List PageEvent :=
  [PageEvent.hydrateEvt, PageEvent.discardEvt,
   PageEvent.dirtyTick (some wFieldsA),
   PageEvent.persistTick (some wFieldsC) ("T1")]

def c9Start : PageState :=
  { hook := initialHookState, store := c9Store,
    showDraftDialog := false, promptShows := 0 }

/-- C9: the prompt is *not* shown at most once per mount.  After the user
resolves it (discard), the save of the next persist tick sets `hasDraft` back
to true, the dependencies of the dialog effect change, and the effect opens
the prompt a second time within the same mount. -/
theorem recovery_prompt_shown_twice :
    (pageRun newPostDraftKey (c9Trace.take 2) c9Start).promptShows = 1 ∧
    (pageRun newPostDraftKey (c9Trace.take 2) c9Start).showDraftDialog =
      false ∧
    (pageRun newPostDraftKey c9Trace c9Start).promptShows = 2 ∧
    (pageRun newPostDraftKey c9Trace c9Start).showDraftDialog = true := by
  decide

end BlogEditor
